import Mathlib

/-!
# Spectrum and magnetic sensor of `target`

A shallow embedding of `src/spectrum/spectrum.c` and
`src/magnetic_sensor/magnetic_sensor.c`.

Conventions of the embedding.

* `int` is 32 bits wide.  An `int` value is a mathematical integer and every
  `int` operation that can leave the range is followed by `wrap32`
  (two's-complement wrap-around).  `size_t` is 64 bits wide and unsigned.
* Heap memory is a list of blocks, a pointer is `none` (NULL, or never
  assigned) or the number of a block.  `malloc` always succeeds and the block
  it returns holds arbitrary values, given by the parameter `junk`.
* A read or write through NULL or outside the block has no defined result:
  the embedded function returns `none`.
* `float` and `float complex` are type parameters.  Library functions
  (`cabsf`, `cexp`) and functions of files that are not part of the sources at
  hand (`norm`) are parameters; the theorems about exact values instantiate
  them over the real and complex numbers.
* A structure passed by value is a copy: what the callee assigns to its fields
  is not seen by the caller.  A structure passed by pointer is returned
  updated.
-/

set_option linter.unusedVariables false

namespace Target

/-! ## Machine integers -/

/-- Two's-complement wrap-around of a mathematical integer into the range of a
32-bit `int`. -/
def wrap32 (x : Int) : Int := (x + 2147483648) % 4294967296 - 2147483648

/-- Largest value of an `int`. -/
def INT_MAX : Int := 2147483647

/-- Conversion of an `int` to the unsigned 64-bit `size_t`. -/
def toSizeT (x : Int) : Nat := (x % 18446744073709551616).toNat

/-- Multiplication of two `size_t` values. -/
def sizeMul (a b : Nat) : Nat := (a * b) % 18446744073709551616

/-- The C remainder `a % b` of two `int`s (truncated division); undefined for
a zero divisor. -/
def cmod (a b : Int) : Option Int := if b = 0 then none else some (Int.tmod a b)

/-! ## Memory -/

/-- A pointer: NULL (or never assigned), or the number of an allocated block. -/
abbrev Ptr := Option Nat

/-- The heap: the allocated blocks, in the order of their allocation. -/
abbrev Heap (V : Type) := List (List V)

/-- The call `malloc(count * sizeof(V))`: a new block of `count` cells with
arbitrary contents. -/
def malloc {V : Type} (junk : Nat → Nat → V) (h : Heap V) (count : Nat) : Heap V × Ptr :=
  (h ++ [(List.range count).map (junk h.length)], some h.length)

/-- The read `p[i]`. -/
def load {V : Type} (h : Heap V) (p : Ptr) (i : Int) : Option V :=
  match p with
  | none => none
  | some a =>
    match h[a]? with
    | none => none
    | some blk => if 0 ≤ i then blk[i.toNat]? else none

/-- The write `p[i] = v`. -/
def store {V : Type} (h : Heap V) (p : Ptr) (i : Int) (v : V) : Option (Heap V) :=
  match p with
  | none => none
  | some a =>
    match h[a]? with
    | none => none
    | some blk =>
      if 0 ≤ i ∧ i.toNat < blk.length then some (h.set a (blk.set i.toNat v)) else none

/-- The loop `for (int index = lo; index < hi; index++) body`, for a body that
assigns neither `index` nor the bound.  The counter stays below `hi`, so its
increment never leaves the `int` range. -/
def forLoop {S : Type} (lo hi : Int) (body : Int → S → Option S) (s : S) : Option S :=
  (List.range (hi - lo).toNat).foldlM (fun st (k : Nat) => body (lo + (k : Int)) st) s

/-! ## indexer.h -/

/-- The `Indexer` of `indexer.h`, with the fields the sources use. -/
structure Indexer where
  /-- position of the next sample -/
  sample : Int
  /-- slot being written -/
  buffer : Int
  /-- samples per slot -/
  sample_size : Int
  /-- number of slots -/
  amount_of_buffers : Int
deriving DecidableEq, Repr

/-- Modelled from the spec: `incrementIndex` of `indexer.c`, which is not
among the sources.  "advances the cursor.  When the cursor reaches
`sample_size`, the cursor resets to 0 and the active slot flips, and the call
returns true."  The result is the indexer after the call and the returned
`int`. -/
def incrementIndex (indexer : Indexer) : Indexer × Int :=
  let sample := wrap32 (indexer.sample + 1)
  if sample = indexer.sample_size then
    ({ indexer with sample := 0, buffer := Int.tmod (wrap32 (indexer.buffer + 1)) 2 }, 1)
  else
    ({ indexer with sample := sample }, 0)

/-! ## spectrum.c -/

/-- The `Spectrum` of `spectrum.h`, with the fields the sources use. -/
structure Spectrum where
  /-- pointer to the values, `amount_of_buffers * sample_size` of them -/
  samples : Ptr
  /-- bins per slot -/
  sample_size : Int
  /-- number of slots -/
  amount_of_buffers : Int
  /-- the constant `2.0 / sample_size` -/
  double_per_sample_size : ℚ
  /-- set to 1 by `initSpectrum` -/
  initialized : Int
deriving DecidableEq, Repr

/-- The memory `spectrum.c` works on: the heap of `float complex` blocks and
the three file-scope variables. -/
structure State (C : Type) where
  /-- blocks of `float complex` -/
  heap : Heap C
  /-- the variable `angles` -/
  angles : Ptr
  /-- the variable `angles_initialized` -/
  angles_initialized : Int
  /-- the variable `amount_of_angles` -/
  amount_of_angles : Int

/-- Modelled from the spec: the macro `SPECTRUM_INITIALIZATION_CHECK_SUM` of
`spectrum.h`, which is not among the sources.  "`isInitialized` is true only
when the shared TwiddleTable is built, the instance's own buffers are
allocated, and sample_size exceeds the minimum bin count": all three checks. -/
def SPECTRUM_INITIALIZATION_CHECK_SUM : Int := 3

/-- The function `initSpectrumAngles`.  `cexp k n` stands for the
`float complex` value of `cexp(-(k * (M_PI) * I) / n)`, where `k` is the value
of the `int` expression `2 * i * j`. -/
def initSpectrumAngles {C : Type} (cexp : Int → Int → C) (junk : Nat → Nat → C)
    (st : State C) (sample_size : Int) : Option (State C) :=
  if st.angles_initialized = 0 then
    let amount_of_angles := sample_size
    let m := malloc junk st.heap
      (sizeMul (sizeMul 8 (toSizeT amount_of_angles)) (toSizeT amount_of_angles) / 8)
    let angles := m.2
    (forLoop 0 amount_of_angles (fun i hp =>
        forLoop 0 amount_of_angles (fun j hq =>
          store hq angles (wrap32 (wrap32 (i * amount_of_angles) + j))
            (cexp (wrap32 (wrap32 (2 * i) * j)) amount_of_angles)) hp) m.1).map
      (fun heap =>
        { heap := heap, angles := angles, angles_initialized := 1,
          amount_of_angles := amount_of_angles })
  else if st.amount_of_angles ≠ sample_size then
    some st
  else
    some st

/-- The function `initSpectrum`; the structure behind the pointer `spectrum`
is returned updated. -/
def initSpectrum {C : Type} [Zero C] (cexp : Int → Int → C) (junk : Nat → Nat → C)
    (st : State C) (spectrum : Spectrum) (sample_size amount_of_buffers : Int) :
    Option (State C × Spectrum) :=
  if sample_size ≤ 10 ∨ amount_of_buffers < 1 then some (st, spectrum) else
  let spectrum := { spectrum with amount_of_buffers := amount_of_buffers }
  let spectrum := { spectrum with sample_size := sample_size }
  let m := malloc junk st.heap
    (sizeMul (sizeMul 8 (toSizeT amount_of_buffers)) (toSizeT sample_size) / 8)
  let spectrum := { spectrum with samples := m.2 }
  (forLoop 0 (wrap32 (amount_of_buffers * sample_size))
      (fun index hp => store hp spectrum.samples index 0) m.1).bind
    (fun heap =>
      let spectrum := { spectrum with double_per_sample_size := 2 / (sample_size : ℚ) }
      (initSpectrumAngles cexp junk { st with heap := heap } sample_size).map
        (fun st => (st, { spectrum with initialized := 1 })))

/-- The function `isSpectrumInitialized`; the result is the `int` value of the
comparison. -/
def isSpectrumInitialized {C : Type} (st : State C) (spectrum : Spectrum) : Int :=
  let check_sum : Int := 0
  let check_sum := if st.angles_initialized = 1 then check_sum + 1 else check_sum
  let check_sum := if spectrum.initialized = 1 then check_sum + 1 else check_sum
  let check_sum := if spectrum.sample_size > 10 then check_sum + 1 else check_sum
  if check_sum = SPECTRUM_INITIALIZATION_CHECK_SUM then 1 else 0

/-- The function `getSpectrumWindowIntensity`; `cabsf` is the library function
of that name. -/
def getSpectrumWindowIntensity {C R : Type} (cabsf : C → R) (heap : Heap C)
    (spectrum : Spectrum) (window : Int) (indexer : Indexer) : Option R :=
  (cmod (wrap32 (indexer.buffer + 1)) indexer.amount_of_buffers).bind (fun slot =>
    let spectrum_window := wrap32 (wrap32 (slot * indexer.sample_size) + window)
    (load heap spectrum.samples spectrum_window).map (fun value =>
      let intensity := cabsf value
      intensity))

/-- The index `spectrum_window` at which `getSpectrumWindowIntensity` reads,
computed as the function computes it. -/
def spectrum_window (window : Int) (indexer : Indexer) : Option Int :=
  (cmod (wrap32 (indexer.buffer + 1)) indexer.amount_of_buffers).map (fun slot =>
    wrap32 (wrap32 (slot * indexer.sample_size) + window))

/-! ## magnetic_sensor.c -/

/-- The `MagneticSensor` of `magnetic_sensor.h`, with the fields the sources
use. -/
structure MagneticSensor where
  /-- pointer to the samples -/
  samples : Ptr
  /-- samples per slot -/
  sample_size : Int
  /-- cursor and active slot -/
  indexer : Indexer
deriving DecidableEq, Repr

/-- The body of `initMagneticSensor`, run on the callee's copy of the sensor:
the heap and the copy at the end of the body. -/
def initMagneticSensor_body {F : Type} (junk : Nat → Nat → F) (h : Heap F)
    (sensor : MagneticSensor) (i2c : Int) : Heap F × MagneticSensor :=
  let m := malloc junk h (sizeMul (sizeMul 4 2) (toSizeT sensor.sample_size) / 4)
  let sensor := { sensor with samples := m.2 }
  let sensor := { sensor with indexer := { sensor.indexer with sample_size := sensor.sample_size } }
  (m.1, sensor)

/-- The call `initMagneticSensor(sensor, i2c)`: the sensor is passed by value,
so the caller keeps its own sensor and sees the heap only. -/
def initMagneticSensor {F : Type} (junk : Nat → Nat → F) (h : Heap F)
    (sensor : MagneticSensor) (i2c : Int) : Heap F × MagneticSensor :=
  ((initMagneticSensor_body junk h sensor i2c).1, sensor)

/-- The call `addSample(sensor, vector)`: the heap, the caller's sensor and
the returned `int`.  The sensor and, in the call of `incrementIndex`, its
indexer are passed by value.  `norm` is the function of `space.h`. -/
def addSample {F Vec : Type} (norm : Vec → F) (h : Heap F) (sensor : MagneticSensor)
    (vector : Vec) : Option (Heap F × MagneticSensor × Int) :=
  (store h sensor.samples sensor.indexer.sample (norm vector)).map (fun heap =>
    (heap, sensor, (incrementIndex sensor.indexer).2))

/-- The call `resetSampleCache(sensor)`: the sensor is passed by value, the
writes go through its pointer. -/
def resetSampleCache {F : Type} [Zero F] (h : Heap F) (sensor : MagneticSensor) :
    Option (Heap F) :=
  let previous_cache_index := Int.tmod (wrap32 (sensor.indexer.buffer + 1)) 2
  forLoop (wrap32 (sensor.indexer.buffer * sensor.sample_size))
    (wrap32 (wrap32 (sensor.indexer.buffer + 1) * sensor.sample_size))
    (fun index hp => store hp sensor.samples index 0) h

/-- A caller that appends the vectors one after the other with `addSample`:
the heap and the caller's sensor at the end, and the values the calls
returned, in order. -/
def addSamples {F Vec : Type} (norm : Vec → F) (h : Heap F) (sensor : MagneticSensor) :
    List Vec → Option (Heap F × MagneticSensor × List Int)
  | [] => some (h, sensor, [])
  | v :: vs =>
    match addSample norm h sensor v with
    | none => none
    | some (h1, sensor1, r) =>
      match addSamples norm h1 sensor1 vs with
      | none => none
      | some (h2, sensor2, rs) => some (h2, sensor2, r :: rs)

/-! ## The blocks the loops produce -/

/-- Row `i` of the table: the cells `i * N + j`, for `j` below `N`, of a block
set to `val i j`. -/
def fillRow {V : Type} (N : Nat) (val : Nat → Nat → V) (i : Nat) (blk : List V) : List V :=
  (List.range N).foldl (fun b j => b.set (i * N + j) (val i j)) blk

/-- The table: the rows below `N` of a block filled, one after the other. -/
def fillTable {V : Type} (N : Nat) (val : Nat → Nat → V) (blk : List V) : List V :=
  (List.range N).foldl (fun b i => fillRow N val i b) blk

/-- The first `m` cells of a block set to zero. -/
def fillZero {V : Type} [Zero V] (m : Nat) (blk : List V) : List V :=
  (List.range m).foldl (fun b k => b.set k 0) blk

/-- The value `initSpectrumAngles` stores for row `i` and column `j`. -/
def twiddle {C : Type} (cexp : Int → Int → C) (N : Nat) (i j : Nat) : C :=
  cexp (wrap32 (wrap32 (2 * (i : Int)) * (j : Int))) (N : Int)

/-! ## Values used in the examples -/

/-- A spectrum of three slots of eleven bins whose values are in block 0. -/
def spectrum3 : Spectrum :=
  { samples := some 0, sample_size := 11, amount_of_buffers := 3,
    double_per_sample_size := 2 / 11, initialized := 1 }

/-- A block of 33 values, the value at index `k` being `k + 0i`, as pairs of a
real and an imaginary part. -/
def ramp33 : List (ℚ × ℚ) := (List.range 33).map (fun k => ((k : ℚ), 0))

/-- A sensor of slot size 11 whose samples are in block 0, with the given
cursor and active slot. -/
def sensor11 (sample buffer : Int) : MagneticSensor :=
  { samples := some 0, sample_size := 11,
    indexer := { sample := sample, buffer := buffer, sample_size := 11, amount_of_buffers := 2 } }

/-- A spectrum structure whose fields are all zero. -/
def spectrumZeroed : Spectrum :=
  { samples := none, sample_size := 0, amount_of_buffers := 0,
    double_per_sample_size := 0, initialized := 0 }

/-- The state at program start: empty heap, file-scope variables zero. -/
def statePristine (C : Type) : State C :=
  { heap := [], angles := none, angles_initialized := 0, amount_of_angles := 0 }

/-- A state in which a table for size 11 is recorded as built, block 0 holding
its 121 entries, all equal to `c`. -/
def stateBuilt11 {C : Type} (c : C) : State C :=
  { heap := [List.replicate 121 c], angles := some 0, angles_initialized := 1,
    amount_of_angles := 11 }

/-- A zeroed sensor structure in which the caller has set `sample_size` to 5
before initialising it. -/
def sensorZeroed5 : MagneticSensor :=
  { samples := none, sample_size := 5,
    indexer := { sample := 0, buffer := 0, sample_size := 0, amount_of_buffers := 0 } }

/-- A spectrum of 65537 slots of 32768 bins whose values are in block 0. -/
def spectrumWide : Spectrum :=
  { samples := some 0, sample_size := 32768, amount_of_buffers := 65537,
    double_per_sample_size := 2 / 32768, initialized := 1 }

/-- A spectrum of 2 slots of 11 bins whose values are in block 0. -/
def spectrum2 : Spectrum :=
  { samples := some 0, sample_size := 11, amount_of_buffers := 2,
    double_per_sample_size := 2 / 11, initialized := 1 }

/-- An indexer of 65537 slots of 32768 samples whose active slot is 65535. -/
def indexerWide : Indexer :=
  { sample := 0, buffer := 65535, sample_size := 32768, amount_of_buffers := 65537 }

/-- A zeroed sensor structure in which the caller has set `sample_size` to 11
before initialising it. -/
def sensorZeroed11 : MagneticSensor :=
  { samples := none, sample_size := 11,
    indexer := { sample := 0, buffer := 0, sample_size := 0, amount_of_buffers := 0 } }

end Target

namespace Target

/-! ## Arithmetic of `int` and `size_t` -/

theorem wrap32_eq_self (x : Int) (h1 : -2147483648 ≤ x) (h2 : x ≤ 2147483647) :
    wrap32 x = x := by
  unfold wrap32
  omega

theorem wrap32_nonneg_le (p : Int) (hp : 0 ≤ p) :
    (wrap32 p).toNat ≤ (8 * p.toNat % 18446744073709551616) / 8 := by
  unfold wrap32
  omega

/-! ## Reads and writes -/

theorem store_some {V : Type} (h : Heap V) (a : Nat) (blk : List V) (i : Int) (v : V)
    (hh : h[a]? = some blk) (h0 : 0 ≤ i) (h1 : i.toNat < blk.length) :
    store h (some a) i v = some (h.set a (blk.set i.toNat v)) := by
  simp only [store, hh]
  rw [if_pos ⟨h0, h1⟩]

theorem store_neg {V : Type} (h : Heap V) (p : Ptr) (i : Int) (v : V) (hi : i < 0) :
    store h p i v = none := by
  cases p with
  | none => rfl
  | some a =>
    cases hb : h[a]? with
    | none => simp only [store, hb]
    | some blk =>
      have hc : ¬ (0 ≤ i ∧ i.toNat < blk.length) := fun hc => absurd hc.1 (by omega)
      simp only [store, hb, if_neg hc]

theorem heap_set_getElem? {V : Type} (h : Heap V) (a : Nat) (blk blk1 : List V)
    (hh : h[a]? = some blk) : (h.set a blk1)[a]? = some blk1 := by
  have ha : a < h.length := by
    rcases Nat.lt_or_ge a h.length with hlt | hge
    · exact hlt
    · rw [List.getElem?_eq_none hge] at hh
      cases hh
  exact List.getElem?_set_self ha

/-! ## Loops -/

theorem foldlM_none_of_mem {S ι : Type} (body : S → ι → Option S) (k : ι)
    (hk : ∀ s, body s k = none) (l : List ι) (hl : k ∈ l) (s : S) :
    l.foldlM body s = none := by
  induction l generalizing s with
  | nil => cases hl
  | cons x xs ih =>
    rw [List.foldlM_cons]
    cases hx : body s x with
    | none => rfl
    | some s1 =>
      rcases List.mem_cons.mp hl with rfl | hmem
      · rw [hk s] at hx
        cases hx
      · exact ih hmem s1

theorem foldlM_block {V ι : Type} (a L : Nat) (T : ι → List V → List V)
    (body : Heap V → ι → Option (Heap V)) (l : List ι)
    (hT : ∀ k ∈ l, ∀ blk : List V, blk.length = L → (T k blk).length = L)
    (hbody : ∀ k ∈ l, ∀ (h : Heap V) (blk : List V), h[a]? = some blk → blk.length = L →
      body h k = some (h.set a (T k blk)))
    (h : Heap V) (blk : List V) (hh : h[a]? = some blk) (hL : blk.length = L) :
    l.foldlM body h = some (h.set a (l.foldl (fun b k => T k b) blk)) := by
  induction l generalizing h blk with
  | nil =>
    simp only [List.foldlM_nil, List.foldl_nil]
    have : h.set a blk = h := by
      apply List.ext_getElem?
      intro n
      by_cases hn : a = n
      · subst hn
        rw [heap_set_getElem? h a blk blk hh, hh]
      · rw [List.getElem?_set_ne hn]
    rw [this]
    rfl
  | cons x xs ih =>
    rw [List.foldlM_cons, hbody x (List.mem_cons_self x xs) h blk hh hL]
    have h1 := ih (fun k hk => hT k (List.mem_cons_of_mem x hk))
      (fun k hk => hbody k (List.mem_cons_of_mem x hk))
      (h.set a (T x blk)) (T x blk) (heap_set_getElem? h a blk _ hh)
      (hT x (List.mem_cons_self x xs) blk hL)
    simp only [List.foldl_cons]
    rw [List.set_set] at h1
    exact h1

/-! ## Blocks filled by a loop of writes -/

theorem foldl_set_length {V ι : Type} (f : ι → Nat) (g : ι → V) (l : List ι) (b : List V) :
    (l.foldl (fun b k => b.set (f k) (g k)) b).length = b.length := by
  induction l generalizing b with
  | nil => rfl
  | cons x xs ih => rw [List.foldl_cons, ih, List.length_set]

theorem foldl_set_getElem?_other {V ι : Type} (f : ι → Nat) (g : ι → V) (l : List ι)
    (b : List V) (p : Nat) (hp : ∀ k ∈ l, f k ≠ p) :
    (l.foldl (fun b k => b.set (f k) (g k)) b)[p]? = b[p]? := by
  induction l generalizing b with
  | nil => rfl
  | cons x xs ih =>
    rw [List.foldl_cons, ih _ (fun k hk => hp k (List.mem_cons_of_mem x hk)),
      List.getElem?_set_ne (hp x (List.mem_cons_self x xs))]

theorem foldl_range_set_getElem? {V : Type} (f : Nat → Nat) (g : Nat → V) (n : Nat)
    (b : List V) (hinj : ∀ k1 < n, ∀ k2 < n, f k1 = f k2 → k1 = k2)
    (hlen : ∀ k < n, f k < b.length) (k : Nat) (hk : k < n) :
    ((List.range n).foldl (fun b k => b.set (f k) (g k)) b)[f k]? = some (g k) := by
  induction n with
  | zero => omega
  | succ m ih =>
    rw [List.range_succ, List.foldl_append]
    simp only [List.foldl_cons, List.foldl_nil]
    rcases Nat.lt_succ_iff_lt_or_eq.mp hk with hlt | heq
    · have hne : f m ≠ f k := fun hc => by
        have := hinj m (Nat.lt_succ_self m) k hk hc
        omega
      rw [List.getElem?_set_ne hne]
      exact ih (fun k1 h1 k2 h2 => hinj k1 (Nat.lt_succ_of_lt h1) k2 (Nat.lt_succ_of_lt h2))
        (fun k1 h1 => hlen k1 (Nat.lt_succ_of_lt h1)) hlt
    · subst heq
      apply List.getElem?_set_self
      rw [foldl_set_length]
      exact hlen k hk

theorem fillRow_length {V : Type} (N : Nat) (val : Nat → Nat → V) (i : Nat) (blk : List V) :
    (fillRow N val i blk).length = blk.length :=
  foldl_set_length (fun j => i * N + j) (fun j => val i j) (List.range N) blk

theorem fillRow_getElem? {V : Type} (N : Nat) (val : Nat → Nat → V) (i : Nat) (blk : List V)
    (j : Nat) (hj : j < N) (hlen : i * N + N ≤ blk.length) :
    (fillRow N val i blk)[i * N + j]? = some (val i j) :=
  foldl_range_set_getElem? (fun j => i * N + j) (fun j => val i j) N blk
    (fun k1 _ k2 _ h => by dsimp only at h; omega) (fun k hk => by dsimp only; omega) j hj

theorem fillRow_getElem?_other {V : Type} (N : Nat) (val : Nat → Nat → V) (i : Nat)
    (blk : List V) (p : Nat) (hp : p < i * N ∨ i * N + N ≤ p) :
    (fillRow N val i blk)[p]? = blk[p]? :=
  foldl_set_getElem?_other (fun j => i * N + j) (fun j => val i j) (List.range N) blk p
    (fun k hk => by
      have := List.mem_range.mp hk
      dsimp only
      omega)

theorem fillRows_length {V : Type} (N : Nat) (val : Nat → Nat → V) (l : List Nat)
    (blk : List V) : (l.foldl (fun b i => fillRow N val i b) blk).length = blk.length := by
  induction l generalizing blk with
  | nil => rfl
  | cons x xs ih => rw [List.foldl_cons, ih, fillRow_length]

theorem fillTable_length {V : Type} (N : Nat) (val : Nat → Nat → V) (blk : List V) :
    (fillTable N val blk).length = blk.length :=
  fillRows_length N val (List.range N) blk

theorem fillRows_getElem? {V : Type} (N : Nat) (val : Nat → Nat → V) (blk : List V) (m : Nat)
    (hlen : m * N ≤ blk.length) (i j : Nat) (hi : i < m) (hj : j < N) :
    ((List.range m).foldl (fun b i => fillRow N val i b) blk)[i * N + j]? = some (val i j) := by
  induction m with
  | zero => omega
  | succ m ih =>
    have hmul : (m + 1) * N = m * N + N := Nat.succ_mul m N
    rw [List.range_succ, List.foldl_append]
    simp only [List.foldl_cons, List.foldl_nil]
    have hlenm := fillRows_length N val (List.range m) blk
    rcases Nat.lt_succ_iff_lt_or_eq.mp hi with hlt | heq
    · have hle : (i + 1) * N ≤ m * N := Nat.mul_le_mul_right N hlt
      have hmul2 : (i + 1) * N = i * N + N := Nat.succ_mul i N
      rw [fillRow_getElem?_other N val m _ (i * N + j) (Or.inl (by omega))]
      exact ih (by omega) hlt
    · subst heq
      exact fillRow_getElem? N val i _ j hj (by rw [hlenm]; omega)

theorem fillTable_getElem? {V : Type} (N : Nat) (val : Nat → Nat → V) (blk : List V)
    (hlen : N * N ≤ blk.length) (i j : Nat) (hi : i < N) (hj : j < N) :
    (fillTable N val blk)[i * N + j]? = some (val i j) :=
  fillRows_getElem? N val blk N hlen i j hi hj

theorem fillZero_length {V : Type} [Zero V] (m : Nat) (blk : List V) :
    (fillZero m blk).length = blk.length :=
  foldl_set_length (fun k => k) (fun _ => (0 : V)) (List.range m) blk

theorem fillZero_getElem? {V : Type} [Zero V] (m : Nat) (blk : List V) (hlen : m ≤ blk.length)
    (k : Nat) (hk : k < m) : (fillZero m blk)[k]? = some 0 :=
  foldl_range_set_getElem? (fun k => k) (fun _ => (0 : V)) m blk
    (fun _ _ _ _ h => h) (fun k hk => by dsimp only; omega) k hk

theorem fillZero_getElem?_other {V : Type} [Zero V] (m : Nat) (blk : List V) (p : Nat)
    (hp : m ≤ p) : (fillZero m blk)[p]? = blk[p]? :=
  foldl_set_getElem?_other (fun k => k) (fun _ => (0 : V)) (List.range m) blk p
    (fun k hk => by
      have := List.mem_range.mp hk
      dsimp only
      omega)

theorem fillZero_eq_replicate {V : Type} [Zero V] (blk : List V) :
    fillZero blk.length blk = List.replicate blk.length 0 := by
  apply List.ext_getElem?
  intro k
  rcases Nat.lt_or_ge k blk.length with hlt | hge
  · rw [fillZero_getElem? blk.length blk (Nat.le_refl _) k hlt, List.getElem?_replicate,
      if_pos hlt]
  · rw [List.getElem?_eq_none (by rw [fillZero_length]; exact hge),
      List.getElem?_eq_none (by rw [List.length_replicate]; exact hge)]

/-! ## The loops of `initSpectrumAngles` -/

theorem forLoop_zero_eq {S : Type} (N : Nat) (body : Int → S → Option S) (s : S) :
    forLoop 0 (N : Int) body s
      = (List.range N).foldlM (fun st (k : Nat) => body (k : Int) st) s := by
  unfold forLoop
  simp only [sub_zero, Int.toNat_ofNat, zero_add]

theorem index_in_range (N i j : Nat) (hN : N * N ≤ 2147483648) (hi : i < N) (hj : j < N) :
    wrap32 (wrap32 ((i : Int) * (N : Int)) + (j : Int)) = ((i * N + j : Nat) : Int) := by
  have h1 : (i + 1) * N ≤ N * N := Nat.mul_le_mul_right N hi
  have h2 : (i + 1) * N = i * N + N := Nat.succ_mul i N
  have h3 : ((i * N : Nat) : Int) = (i : Int) * (N : Int) := by push_cast; rfl
  have e1 : wrap32 ((i : Int) * (N : Int)) = (i : Int) * (N : Int) :=
    wrap32_eq_self _ (by omega) (by omega)
  rw [e1, wrap32_eq_self _ (by omega) (by omega)]
  push_cast
  rfl

theorem rowLoop_eq {C : Type} (cexp : Int → Int → C) (N : Nat) (hN : N * N ≤ 2147483648)
    (a : Nat) (i : Nat) (hi : i < N) (h : Heap C) (blk : List C) (hh : h[a]? = some blk)
    (hL : blk.length = N * N) :
    forLoop 0 (N : Int) (fun j hq =>
        store hq (some a) (wrap32 (wrap32 ((i : Int) * (N : Int)) + j))
          (cexp (wrap32 (wrap32 (2 * (i : Int)) * j)) (N : Int))) h
      = some (h.set a (fillRow N (twiddle cexp N) i blk)) := by
  rw [forLoop_zero_eq]
  have h1 : (i + 1) * N ≤ N * N := Nat.mul_le_mul_right N hi
  have h2 : (i + 1) * N = i * N + N := Nat.succ_mul i N
  exact foldlM_block a (N * N) (fun j b => b.set (i * N + j) (twiddle cexp N i j))
    (fun hq (j : Nat) => store hq (some a) (wrap32 (wrap32 ((i : Int) * (N : Int)) + (j : Int)))
      (cexp (wrap32 (wrap32 (2 * (i : Int)) * (j : Int))) (N : Int)))
    (List.range N)
    (fun k _ b hb => by rw [List.length_set]; exact hb)
    (fun k hk hq b hq1 hb => by
      have hk1 := List.mem_range.mp hk
      dsimp only
      rw [index_in_range N i k hN hi hk1]
      rw [store_some hq a b _ _ hq1 (Int.ofNat_nonneg _) (by rw [Int.toNat_ofNat]; omega)]
      rw [Int.toNat_ofNat]
      rfl)
    h blk hh hL

theorem tableLoop_eq {C : Type} (cexp : Int → Int → C) (N : Nat) (hN : N * N ≤ 2147483648)
    (a : Nat) (h : Heap C) (blk : List C) (hh : h[a]? = some blk) (hL : blk.length = N * N) :
    forLoop 0 (N : Int) (fun i hp =>
        forLoop 0 (N : Int) (fun j hq =>
          store hq (some a) (wrap32 (wrap32 (i * (N : Int)) + j))
            (cexp (wrap32 (wrap32 (2 * i) * j)) (N : Int))) hp) h
      = some (h.set a (fillTable N (twiddle cexp N) blk)) := by
  rw [forLoop_zero_eq]
  exact foldlM_block a (N * N) (fun i b => fillRow N (twiddle cexp N) i b)
    (fun hp (i : Nat) => forLoop 0 (N : Int) (fun j hq =>
          store hq (some a) (wrap32 (wrap32 ((i : Int) * (N : Int)) + j))
            (cexp (wrap32 (wrap32 (2 * (i : Int)) * j)) (N : Int))) hp)
    (List.range N)
    (fun k _ b hb => by rw [fillRow_length]; exact hb)
    (fun k hk hp b hp1 hb => rowLoop_eq cexp N hN a k (List.mem_range.mp hk) hp b hp1 hb)
    h blk hh hL

theorem malloc_count_square (N : Nat) (hN : N * N ≤ 2147483648) :
    sizeMul (sizeMul 8 (toSizeT (N : Int))) (toSizeT (N : Int)) / 8 = N * N := by
  have hle : N ≤ N * N ∨ N = 0 := by
    rcases Nat.eq_zero_or_pos N with h0 | hpos
    · exact Or.inr h0
    · exact Or.inl (Nat.le_mul_of_pos_left N hpos)
  have hN2 : N ≤ 2147483648 := by
    rcases hle with h | h <;> omega
  have h1 : toSizeT (N : Int) = N := by
    unfold toSizeT
    omega
  rw [h1]
  unfold sizeMul
  have h2 : 8 * N % 18446744073709551616 = 8 * N := by omega
  rw [h2, Nat.mul_assoc]
  omega

theorem heap_append_set {V : Type} (h : Heap V) (b1 b2 : List V) :
    (h ++ [b1]).set h.length b2 = h ++ [b2] := by
  rw [List.set_append]
  simp

theorem heap_append_getElem? {V : Type} (h : Heap V) (b1 : List V) :
    (h ++ [b1])[h.length]? = some b1 := by
  rw [List.getElem?_append_right (Nat.le_refl _)]
  simp

/-- The table `initSpectrumAngles` builds when none is built yet and the
indices stay in the `int` range. -/
theorem initSpectrumAngles_build {C : Type} (cexp : Int → Int → C) (junk : Nat → Nat → C)
    (st : State C) (N : Nat) (hN : N * N ≤ 2147483648) (h0 : st.angles_initialized = 0) :
    initSpectrumAngles cexp junk st (N : Int)
      = some { heap := st.heap ++ [fillTable N (twiddle cexp N)
                  ((List.range (N * N)).map (junk st.heap.length))],
               angles := some st.heap.length,
               angles_initialized := 1,
               amount_of_angles := (N : Int) } := by
  unfold initSpectrumAngles
  rw [if_pos h0]
  simp only [malloc, malloc_count_square N hN]
  rw [tableLoop_eq cexp N hN st.heap.length _ _ (heap_append_getElem? _ _)
    (by rw [List.length_map, List.length_range])]
  rw [heap_append_set]
  rfl

theorem initSpectrumAngles_nonzero {C : Type} (cexp : Int → Int → C) (junk : Nat → Nat → C)
    (st : State C) (sample_size : Int) (h : st.angles_initialized ≠ 0) :
    initSpectrumAngles cexp junk st sample_size = some st := by
  unfold initSpectrumAngles
  rw [if_neg h]
  split <;> rfl

theorem index_overflow (N i j : Nat) (h : i * N + j = 2147483648) :
    wrap32 (wrap32 ((i : Int) * (N : Int)) + (j : Int)) < 0 := by
  have h3 : ((i * N : Nat) : Int) = (i : Int) * (N : Int) := by push_cast; rfl
  rw [← h3]
  unfold wrap32
  omega

/-- With a size whose square exceeds `2^31` the index `i * N + j` leaves the
`int` range before the table is complete, and the build has no defined
result. -/
theorem initSpectrumAngles_overflow {C : Type} (cexp : Int → Int → C) (junk : Nat → Nat → C)
    (st : State C) (N : Nat) (hN : 2147483648 < N * N) (h0 : st.angles_initialized = 0) :
    initSpectrumAngles cexp junk st (N : Int) = none := by
  have hpos : 0 < N := by
    rcases Nat.eq_zero_or_pos N with hz | hp
    · subst hz; omega
    · exact hp
  have hi : 2147483648 / N < N := Nat.div_lt_of_lt_mul hN
  have hj : 2147483648 % N < N := Nat.mod_lt _ hpos
  have hij : 2147483648 / N * N + 2147483648 % N = 2147483648 := Nat.div_add_mod' _ _
  unfold initSpectrumAngles
  rw [if_pos h0]
  simp only [malloc]
  rw [forLoop_zero_eq]
  rw [foldlM_none_of_mem _ (2147483648 / N) _ (List.range N) (List.mem_range.mpr hi)]
  · rfl
  · intro hp
    rw [forLoop_zero_eq]
    apply foldlM_none_of_mem _ (2147483648 % N) _ (List.range N) (List.mem_range.mpr hj)
    intro hq
    exact store_neg _ _ _ _ (index_overflow N _ _ hij)

/-! ## The loop of `initSpectrum` -/

theorem zeroLoop_eq {C : Type} [Zero C] (M : Int) (a : Nat) (h : Heap C) (blk : List C)
    (hh : h[a]? = some blk) (hM : M.toNat ≤ blk.length) :
    forLoop 0 M (fun index hp => store hp (some a) index 0) h
      = some (h.set a (fillZero M.toNat blk)) := by
  unfold forLoop
  simp only [sub_zero, zero_add]
  exact foldlM_block a blk.length (fun k b => b.set k 0)
    (fun hp (k : Nat) => store hp (some a) (k : Int) 0) (List.range M.toNat)
    (fun k _ b hb => by rw [List.length_set]; exact hb)
    (fun k hk hp b hp1 hb => by
      have hk1 := List.mem_range.mp hk
      dsimp only
      rw [store_some hp a b _ _ hp1 (Int.ofNat_nonneg _) (by rw [Int.toNat_ofNat]; omega)]
      rw [Int.toNat_ofNat])
    h blk hh rfl

theorem malloc_count_mul (B N : Nat) :
    sizeMul (sizeMul 8 (toSizeT (B : Int))) (toSizeT (N : Int))
      = 8 * (B * N) % 18446744073709551616 := by
  have h1 : toSizeT (B : Int) = B % 18446744073709551616 := by
    unfold toSizeT
    omega
  have h2 : toSizeT (N : Int) = N % 18446744073709551616 := by
    unfold toSizeT
    omega
  rw [h1, h2]
  unfold sizeMul
  rw [← Nat.mul_assoc 8 B N, Nat.mul_mod (8 * B) N, Nat.mul_mod 8 B]

/-- The number of cells `initSpectrum` allocates for the values. -/
theorem initSpectrum_count (B N : Nat) :
    (wrap32 ((B : Int) * (N : Int))).toNat
      ≤ sizeMul (sizeMul 8 (toSizeT (B : Int))) (toSizeT (N : Int)) / 8 := by
  rw [malloc_count_mul]
  have h3 : ((B * N : Nat) : Int) = (B : Int) * (N : Int) := by push_cast; rfl
  have := wrap32_nonneg_le ((B * N : Nat) : Int) (Int.ofNat_nonneg _)
  rw [Int.toNat_ofNat, h3] at this
  exact this

/-- What `initSpectrum` does with an accepted size: the values are allocated
and zero-filled up to the `int` product of the two sizes, then the table is
built if none is. -/
theorem initSpectrum_valid {C : Type} [Zero C] (cexp : Int → Int → C) (junk : Nat → Nat → C)
    (st : State C) (spectrum : Spectrum) (B N : Nat) (hN : 10 < N) (hB : 1 ≤ B) :
    initSpectrum cexp junk st spectrum (N : Int) (B : Int)
      = (initSpectrumAngles cexp junk
          { st with heap := st.heap ++ [fillZero (wrap32 ((B : Int) * (N : Int))).toNat
              ((List.range (sizeMul (sizeMul 8 (toSizeT (B : Int))) (toSizeT (N : Int)) / 8)).map
                (junk st.heap.length))] } (N : Int)).map
          (fun st1 => (st1, { samples := some st.heap.length, sample_size := (N : Int),
                              amount_of_buffers := (B : Int),
                              double_per_sample_size := 2 / ((N : Int) : ℚ),
                              initialized := 1 })) := by
  unfold initSpectrum
  have hg : ¬ ((N : Int) ≤ 10 ∨ (B : Int) < 1) := by omega
  rw [if_neg hg]
  simp only [malloc]
  rw [zeroLoop_eq _ st.heap.length _ _ (heap_append_getElem? _ _)
    (by rw [List.length_map, List.length_range]; exact initSpectrum_count B N)]
  rw [heap_append_set]
  rfl

theorem initSpectrum_reject {C : Type} [Zero C] (cexp : Int → Int → C)
    (junk : Nat → Nat → C) (st : State C) (spectrum : Spectrum) (n b : Int)
    (h : n ≤ 10 ∨ b < 1) : initSpectrum cexp junk st spectrum n b = some (st, spectrum) := by
  unfold initSpectrum
  rw [if_pos h]

theorem checkSum_one_iff {C : Type} (st : State C) (spectrum : Spectrum) :
    isSpectrumInitialized st spectrum = 1 ↔
      (st.angles_initialized = 1 ∧ spectrum.initialized = 1 ∧ spectrum.sample_size > 10) := by
  unfold isSpectrumInitialized SPECTRUM_INITIALIZATION_CHECK_SUM
  by_cases h1 : st.angles_initialized = 1 <;> by_cases h2 : spectrum.initialized = 1 <;>
    by_cases h3 : spectrum.sample_size > 10 <;> simp [h1, h2, h3]

theorem checkSum_zero_iff {C : Type} (st : State C) (spectrum : Spectrum) :
    isSpectrumInitialized st spectrum = 0 ↔
      ¬ (st.angles_initialized = 1 ∧ spectrum.initialized = 1 ∧ spectrum.sample_size > 10) := by
  unfold isSpectrumInitialized SPECTRUM_INITIALIZATION_CHECK_SUM
  by_cases h1 : st.angles_initialized = 1 <;> by_cases h2 : spectrum.initialized = 1 <;>
    by_cases h3 : spectrum.sample_size > 10 <;> simp [h1, h2, h3]

theorem square_le_of_le (N : Nat) (h : N ≤ 46340) : N * N ≤ 2147483648 :=
  Nat.le_trans (Nat.mul_le_mul h h) (by decide)

/-- The result of `initSpectrum` with an accepted size, when it is defined:
the state has the table flag at 1 or as it was, the spectrum has its fields
set and its values are in the block allocated first. -/
theorem initSpectrum_valid_some {C : Type} [Zero C] (cexp : Int → Int → C)
    (junk : Nat → Nat → C) (st : State C) (spectrum : Spectrum) (B N : Nat) (hN : 10 < N)
    (hB : 1 ≤ B) (hsize : st.angles_initialized ≠ 0 ∨ N ≤ 46340) :
    ∃ st1 : State C,
      initSpectrum cexp junk st spectrum (N : Int) (B : Int)
        = some (st1, { samples := some st.heap.length, sample_size := (N : Int),
                       amount_of_buffers := (B : Int),
                       double_per_sample_size := 2 / ((N : Int) : ℚ),
                       initialized := 1 })
      ∧ (st1.angles_initialized = 1 ∨ st1.angles_initialized = st.angles_initialized)
      ∧ (st.angles_initialized = 0 → st1.angles_initialized = 1)
      ∧ st1.heap[st.heap.length]? = some (fillZero (wrap32 ((B : Int) * (N : Int))).toNat
              ((List.range (sizeMul (sizeMul 8 (toSizeT (B : Int))) (toSizeT (N : Int)) / 8)).map
                (junk st.heap.length))) := by
  rw [initSpectrum_valid cexp junk st spectrum B N hN hB]
  by_cases h0 : st.angles_initialized = 0
  · have hN2 : N ≤ 46340 := by
      rcases hsize with h | h
      · exact absurd h0 h
      · exact h
    rw [initSpectrumAngles_build cexp junk _ N (square_le_of_le N hN2) (by exact h0)]
    refine ⟨_, rfl, Or.inl rfl, fun _ => rfl, ?_⟩
    dsimp only
    rw [List.getElem?_append_left (by rw [List.length_append]; simp)]
    exact heap_append_getElem? _ _
  · rw [initSpectrumAngles_nonzero cexp junk _ (N : Int) (by exact h0)]
    refine ⟨_, rfl, Or.inr rfl, fun h => absurd h h0, ?_⟩
    exact heap_append_getElem? _ _

theorem junk_first {V : Type} [Zero V] (count : Nat) (hpos : 0 < count) (f : Nat → V) :
    (fillZero 0 ((List.range count).map f))[0]? = some (f 0) := by
  unfold fillZero
  simp only [List.range_zero, List.foldl_nil]
  rw [List.getElem?_map, List.getElem?_range hpos]
  rfl

/-! ## The twiddle table over the complex numbers -/

theorem twiddle_exact (N I J : Nat) (hN : N ≤ 32768) (hI : I < N) (hJ : J < N) :
    wrap32 (wrap32 (2 * (I : Int)) * (J : Int)) = 2 * (I : Int) * (J : Int) := by
  have h1 : I * J ≤ 32767 * 32767 := Nat.mul_le_mul (by omega) (by omega)
  have h3 : ((I * J : Nat) : Int) = (I : Int) * (J : Int) := by push_cast; rfl
  rw [wrap32_eq_self (2 * (I : Int)) (by omega) (by omega)]
  rw [Int.mul_assoc, ← h3]
  exact wrap32_eq_self _ (by omega) (by omega)

theorem abs_exp_twiddle (x : ℝ) :
    Complex.abs (Complex.exp (-(2 * (Real.pi : ℂ) * Complex.I * (x : ℂ)))) = 1 := by
  have h : -(2 * (Real.pi : ℂ) * Complex.I * (x : ℂ))
      = ((-(2 * Real.pi * x) : ℝ) : ℂ) * Complex.I := by
    push_cast
    ring
  rw [h, Complex.abs_exp_ofReal_mul_I]

theorem exp_arg_eq (i j n : Int) :
    Complex.exp (-(((2 * i * j : Int) : ℂ) * (Real.pi : ℂ) * Complex.I) / (n : ℂ))
      = Complex.exp (-(2 * (Real.pi : ℂ) * Complex.I * (i : ℂ) * (j : ℂ)) / (n : ℂ)) := by
  have h : -(((2 * i * j : Int) : ℂ) * (Real.pi : ℂ) * Complex.I) / (n : ℂ)
      = -(2 * (Real.pi : ℂ) * Complex.I * (i : ℂ) * (j : ℂ)) / (n : ℂ) := by
    push_cast
    ring
  rw [h]

theorem abs_exp_entry (i j n : Int) :
    Complex.abs (Complex.exp
      (-(2 * (Real.pi : ℂ) * Complex.I * (i : ℂ) * (j : ℂ)) / (n : ℂ))) = 1 := by
  have he : -(2 * (Real.pi : ℂ) * Complex.I * (i : ℂ) * (j : ℂ)) / (n : ℂ)
      = -(2 * (Real.pi : ℂ) * Complex.I * ((((i : ℝ) * (j : ℝ)) / (n : ℝ) : ℝ) : ℂ)) := by
    push_cast
    ring
  rw [he]
  exact abs_exp_twiddle _

theorem exp_wrapped_ne :
    Complex.exp (-((((-2147483648 : Int)) : ℂ) * (Real.pi : ℂ) * Complex.I) / (((32769 : Int)) : ℂ))
      ≠ Complex.exp (-(2 * (Real.pi : ℂ) * Complex.I * (((32768 : Int)) : ℂ) * (((32768 : Int)) : ℂ))
          / (((32769 : Int)) : ℂ)) := by
  intro h
  rw [Complex.exp_eq_exp_iff_exists_int] at h
  obtain ⟨n, hn⟩ := h
  have hpi : (Real.pi : ℂ) ≠ 0 := Complex.ofReal_ne_zero.mpr Real.pi_ne_zero
  have hI : Complex.I ≠ 0 := Complex.I_ne_zero
  have h2 : ((Real.pi : ℂ) * Complex.I) * (((4294967296 - 65538 * n : Int)) : ℂ) = 0 := by
    push_cast at hn ⊢
    field_simp at hn
    linear_combination hn
  rcases mul_eq_zero.mp h2 with h3 | h3
  · exact absurd h3 (mul_ne_zero hpi hI)
  · have h4 : (4294967296 - 65538 * n : Int) = 0 := by exact_mod_cast h3
    omega

/-! ## The reads and writes of single calls -/

/-- C1: with three slots and active slot 0, `getSpectrumWindowIntensity` returns
the magnitude of the entry at index 11 (slot `(0 + 1) % 3 = 1`), while the slot
one step behind the active one is slot `(0 - 1) mod 3 = 2`, whose entry for
bin 0 is at index 22 and holds another value. -/
theorem getSpectrumWindowIntensity_three_slots {R : Type} (cabsf : ℚ × ℚ → R) :
    getSpectrumWindowIntensity cabsf [ramp33] spectrum3 0
        { sample := 0, buffer := 0, sample_size := 11, amount_of_buffers := 3 }
      = some (cabsf (11, 0))
    ∧ load [ramp33] spectrum3.samples (((0 - 1) % 3) * 11 + 0) = some (22, 0)
    ∧ ((11 : ℚ), (0 : ℚ)) ≠ (22, 0) := by
  refine ⟨?_, ?_, by decide⟩
  · rfl
  · decide

/-- C2: on a sensor of slot size 11 with active slot 0 and 22 samples equal to
1, `resetSampleCache` zero-fills the entries 0 to 10, the active slot, and
leaves the entries 11 to 21 of the other slot as they were. -/
theorem resetSampleCache_clears_active_slot :
    resetSampleCache [List.replicate 22 (1 : ℚ)] (sensor11 0 0)
      = some [List.replicate 11 0 ++ List.replicate 11 1] := by
  decide

/-- C3: on a sensor of slot size 11 with active slot 1 and cursor 3,
`addSample` writes the norm at index 3, not at index `1 * 11 + 3 = 14`, and the
caller's sensor has the cursor it had before the call. -/
theorem addSample_ignores_slot {Vec : Type} (norm : Vec → ℚ) (v : Vec) :
    addSample norm [List.replicate 22 (0 : ℚ)] (sensor11 3 1) v
      = some ([(List.replicate 22 (0 : ℚ)).set 3 (norm v)], sensor11 3 1, 0) := by
  rfl

/-- C4: (a) after `initMagneticSensor` the caller's zeroed sensor still has no
sample buffer, and appending 22 samples to it fails at the first write;
(b) on a sensor whose buffer and indexer were set up by hand, 22 appends of the
samples 1, 2, ..., 22 all write at index 0, every call returns 0 and the
caller's active slot and cursor never change. -/
theorem addSamples_never_flips (junk : Nat → Nat → ℚ) (norm : Nat → ℚ) :
    initMagneticSensor junk [] sensorZeroed11 225 =
        ([(List.range 22).map (junk 0)], sensorZeroed11)
    ∧ addSamples norm (initMagneticSensor junk [] sensorZeroed11 225).1
        (initMagneticSensor junk [] sensorZeroed11 225).2 (List.range 22) = none
    ∧ addSamples (fun n : Nat => ((n + 1 : Nat) : ℚ)) [List.replicate 22 (0 : ℚ)] (sensor11 0 0)
          (List.range 22)
        = some ([(List.replicate 22 (0 : ℚ)).set 0 22], sensor11 0 0,
            List.replicate 22 0) := by
  refine ⟨?_, rfl, by decide⟩
  simp [initMagneticSensor, initMagneticSensor_body, malloc, sizeMul, toSizeT, sensorZeroed11]

/-! ## Initialisation of a spectrum: the result -/

/-- C5 (amended): for the all-zero spectrum, a table flag of 0 or 1 and all
integers `n` and `b` such that the table is built already or `n <= 46340`,
`initSpectrum` returns and afterwards `isSpectrumInitialized` returns 1 if
`n > 10` and `b >= 1`, and 0 otherwise. -/
theorem initSpectrum_initialized_iff {C : Type} [Zero C] (cexp : Int → Int → C)
    (junk : Nat → Nat → C) (st : State C) (n b : Int)
    (hflag : st.angles_initialized = 0 ∨ st.angles_initialized = 1)
    (hsize : st.angles_initialized = 1 ∨ n ≤ 46340) :
    ∃ (st1 : State C) (sp1 : Spectrum),
      initSpectrum cexp junk st spectrumZeroed n b = some (st1, sp1)
      ∧ (isSpectrumInitialized st1 sp1 = 1 ↔ (n > 10 ∧ b ≥ 1))
      ∧ (isSpectrumInitialized st1 sp1 = 0 ↔ ¬ (n > 10 ∧ b ≥ 1)) := by
  by_cases hv : n > 10 ∧ b ≥ 1
  · obtain ⟨N, rfl⟩ := Int.eq_ofNat_of_zero_le (by omega : 0 ≤ n)
    obtain ⟨B, rfl⟩ := Int.eq_ofNat_of_zero_le (by omega : 0 ≤ b)
    have hs : st.angles_initialized ≠ 0 ∨ N ≤ 46340 := by
      rcases hsize with h | h
      · exact Or.inl (by omega)
      · exact Or.inr (by omega)
    obtain ⟨st1, he, h1, h2, -⟩ :=
      initSpectrum_valid_some cexp junk st spectrumZeroed B N (by omega) (by omega) hs
    have hst1 : st1.angles_initialized = 1 := by
      rcases hflag with h | h
      · exact h2 h
      · rcases h1 with h1 | h1
        · exact h1
        · rw [h1]; exact h
    refine ⟨st1, _, he, ?_, ?_⟩
    · rw [checkSum_one_iff]
      exact ⟨fun _ => hv, fun _ => ⟨hst1, rfl, hv.1⟩⟩
    · rw [checkSum_zero_iff]
      exact ⟨fun h => absurd ⟨hst1, rfl, hv.1⟩ h, fun h => absurd hv h⟩
  · have hr : n ≤ 10 ∨ b < 1 := by omega
    refine ⟨st, spectrumZeroed, initSpectrum_reject cexp junk st spectrumZeroed n b hr, ?_, ?_⟩
    · rw [checkSum_one_iff]
      exact ⟨fun h => absurd h.2.1 (by decide), fun h => absurd h hv⟩
    · rw [checkSum_zero_iff]
      exact ⟨fun _ => hv, fun _ h => absurd h.2.1 (by decide)⟩

/-- Witness of C5 (amended) -/
theorem initSpectrum_initialized_iff_witness :
    ∃ (st1 : State ℚ) (sp1 : Spectrum),
      initSpectrum (fun _ _ => (0 : ℚ)) (fun _ _ => 1) (statePristine ℚ) spectrumZeroed 11 2
        = some (st1, sp1)
      ∧ (isSpectrumInitialized st1 sp1 = 1 ↔ ((11 : Int) > 10 ∧ (2 : Int) ≥ 1))
      ∧ (isSpectrumInitialized st1 sp1 = 0 ↔ ¬ ((11 : Int) > 10 ∧ (2 : Int) ≥ 1)) :=
  initSpectrum_initialized_iff (fun _ _ => (0 : ℚ)) (fun _ _ => 1) (statePristine ℚ) 11 2
    (Or.inl rfl) (Or.inr (by decide))

/-- C5 (as stated) fails: from the pristine state, with `n = 46341` and
`b = 1`, the index `i * n + j` of the table build leaves the `int` range and
`initSpectrum` has no defined result, so there is no state afterwards in which
`isSpectrumInitialized` returns 1 although `n > 10` and `b >= 1`. -/
theorem initSpectrum_46341_undefined :
    (statePristine ℚ).angles_initialized = 0
    ∧ initSpectrum (fun _ _ => (0 : ℚ)) (fun _ _ => 1) (statePristine ℚ) spectrumZeroed 46341 1
        = none
    ∧ ¬ ∃ (st1 : State ℚ) (sp1 : Spectrum),
        initSpectrum (fun _ _ => (0 : ℚ)) (fun _ _ => 1) (statePristine ℚ) spectrumZeroed 46341 1
          = some (st1, sp1)
        ∧ (isSpectrumInitialized st1 sp1 = 1 ↔ ((46341 : Int) > 10 ∧ (1 : Int) ≥ 1)) := by
  have hnone : initSpectrum (fun _ _ => (0 : ℚ)) (fun _ _ => 1) (statePristine ℚ)
      spectrumZeroed 46341 1 = none := by
    have h := initSpectrum_valid (fun _ _ => (0 : ℚ)) (fun _ _ => 1) (statePristine ℚ)
      spectrumZeroed 1 46341 (by decide) (by decide)
    have ho := initSpectrumAngles_overflow (fun _ _ => (0 : ℚ)) (fun _ _ => 1)
      { statePristine ℚ with heap := (statePristine ℚ).heap ++
          [fillZero (wrap32 (((1 : Nat) : Int) * ((46341 : Nat) : Int))).toNat
            ((List.range (sizeMul (sizeMul 8 (toSizeT ((1 : Nat) : Int)))
              (toSizeT ((46341 : Nat) : Int)) / 8)).map
                ((fun _ _ => (1 : ℚ)) (statePristine ℚ).heap.length))] }
      46341 (by decide) rfl
    rw [ho] at h
    exact h
  refine ⟨rfl, hnone, ?_⟩
  rintro ⟨st1, sp1, he, -⟩
  rw [hnone] at he
  cases he

/-- C6: with `sample_size <= 10` or `amount_of_buffers < 1`, `initSpectrum`
returns with the spectrum, the heap and the three file-scope variables as they
were. -/
theorem initSpectrum_invalid_unchanged {C : Type} [Zero C] (cexp : Int → Int → C)
    (junk : Nat → Nat → C) (st : State C) (spectrum : Spectrum)
    (sample_size amount_of_buffers : Int)
    (h : sample_size ≤ 10 ∨ amount_of_buffers < 1) :
    initSpectrum cexp junk st spectrum sample_size amount_of_buffers = some (st, spectrum) := by
  unfold initSpectrum
  rw [if_pos h]

/-- Witness of C6 -/
theorem initSpectrum_invalid_unchanged_witness :
    ((10 : Int) ≤ 10 ∨ (2 : Int) < 1)
    ∧ initSpectrum (fun _ _ => (0 : ℚ)) (fun _ _ => 1) (statePristine ℚ) spectrumZeroed 10 2
      = some (statePristine ℚ, spectrumZeroed) :=
  ⟨Or.inl (by decide),
    initSpectrum_invalid_unchanged (fun _ _ => (0 : ℚ)) (fun _ _ => 1) (statePristine ℚ)
      spectrumZeroed 10 2 (Or.inl (by decide))⟩

/-- C7: `isSpectrumInitialized` returns 1 exactly when `angles_initialized` is
1, the spectrum's `initialized` is 1 and its `sample_size` exceeds 10, and 0
otherwise; the check sum it compares with is 3. -/
theorem isSpectrumInitialized_iff {C : Type} (st : State C) (spectrum : Spectrum) :
    (isSpectrumInitialized st spectrum = 1 ↔
        (st.angles_initialized = 1 ∧ spectrum.initialized = 1 ∧ spectrum.sample_size > 10))
    ∧ (isSpectrumInitialized st spectrum = 0 ↔
        ¬ (st.angles_initialized = 1 ∧ spectrum.initialized = 1 ∧ spectrum.sample_size > 10))
    ∧ SPECTRUM_INITIALIZATION_CHECK_SUM = 3 := by
  unfold isSpectrumInitialized SPECTRUM_INITIALIZATION_CHECK_SUM
  refine ⟨?_, ?_, rfl⟩ <;>
  · by_cases h1 : st.angles_initialized = 1 <;> by_cases h2 : spectrum.initialized = 1 <;>
      by_cases h3 : spectrum.sample_size > 10 <;> simp [h1, h2, h3]

/-- C8 (amended): for `n > 10` and `b >= 1` whose product `b * n` is at most
`2^31 - 1`, and with the table built already or `n <= 46340`, `initSpectrum`
returns with `sample_size = n`, `amount_of_buffers = b`, a value array of
exactly `b * n` entries that are all zero, the constant `2 / n` and
`initialized = 1`. -/
theorem initSpectrum_fields {C : Type} [Zero C] (cexp : Int → Int → C)
    (junk : Nat → Nat → C) (st : State C) (spectrum : Spectrum) (n b : Int)
    (hn : n > 10) (hb : b ≥ 1) (hprod : b * n ≤ INT_MAX)
    (hsize : st.angles_initialized ≠ 0 ∨ n ≤ 46340) :
    ∃ (st1 : State C) (sp1 : Spectrum) (a : Nat),
      initSpectrum cexp junk st spectrum n b = some (st1, sp1)
      ∧ sp1.sample_size = n ∧ sp1.amount_of_buffers = b
      ∧ sp1.samples = some a ∧ st1.heap[a]? = some (List.replicate (b * n).toNat 0)
      ∧ sp1.double_per_sample_size = 2 / (n : ℚ) ∧ sp1.initialized = 1 := by
  unfold INT_MAX at hprod
  obtain ⟨N, rfl⟩ := Int.eq_ofNat_of_zero_le (by omega : 0 ≤ n)
  obtain ⟨B, rfl⟩ := Int.eq_ofNat_of_zero_le (by omega : 0 ≤ b)
  have hs : st.angles_initialized ≠ 0 ∨ N ≤ 46340 := by
    rcases hsize with h | h
    · exact Or.inl h
    · exact Or.inr (by omega)
  obtain ⟨st1, he, -, -, hheap⟩ :=
    initSpectrum_valid_some cexp junk st spectrum B N (by omega) (by omega) hs
  refine ⟨st1, _, st.heap.length, he, rfl, rfl, rfl, ?_, rfl, rfl⟩
  rw [hheap]
  have h3 : ((B * N : Nat) : Int) = (B : Int) * (N : Int) := by push_cast; rfl
  have hBN : B * N ≤ 2147483647 := by
    have : ((B * N : Nat) : Int) ≤ 2147483647 := by rw [h3]; exact hprod
    omega
  have hw : (wrap32 ((B : Int) * (N : Int))).toNat = B * N := by
    rw [← h3, wrap32_eq_self _ (by omega) (by omega), Int.toNat_ofNat]
  have hc : sizeMul (sizeMul 8 (toSizeT (B : Int))) (toSizeT (N : Int)) / 8 = B * N := by
    rw [malloc_count_mul]
    omega
  have ht : ((B : Int) * (N : Int)).toNat = B * N := by
    rw [← h3, Int.toNat_ofNat]
  rw [hw, hc, ht]
  have hl : ((List.range (B * N)).map (junk st.heap.length)).length = B * N := by
    rw [List.length_map, List.length_range]
  have := fillZero_eq_replicate ((List.range (B * N)).map (junk st.heap.length))
  rw [hl] at this
  exact congrArg some this

/-- Witness of C8 (amended) -/
theorem initSpectrum_fields_witness :
    ∃ (st1 : State ℚ) (sp1 : Spectrum) (a : Nat),
      initSpectrum (fun _ _ => (0 : ℚ)) (fun _ _ => 1) (statePristine ℚ) spectrumZeroed 11 2
        = some (st1, sp1)
      ∧ sp1.sample_size = 11 ∧ sp1.amount_of_buffers = 2
      ∧ sp1.samples = some a ∧ st1.heap[a]? = some (List.replicate ((2 : Int) * 11).toNat 0)
      ∧ sp1.double_per_sample_size = 2 / ((11 : Int) : ℚ) ∧ sp1.initialized = 1 :=
  initSpectrum_fields (fun _ _ => (0 : ℚ)) (fun _ _ => 1) (statePristine ℚ) spectrumZeroed 11 2
    (by decide) (by decide) (by decide) (Or.inr (by decide))

/-- C8 (as stated) fails: with `n = 32768 > 10` and `b = 65536 >= 1` the `int`
product `b * n` wraps to `-2^31`, the zero-filling loop does not run, and the
value array, of `2^31` entries, holds what `malloc` left there: with a table
built before and memory that reads 1, the entry at index 0 is 1. -/
theorem initSpectrum_65536_not_zeroed :
    (32768 : Int) > 10 ∧ (65536 : Int) ≥ 1
    ∧ ∃ (st1 : State ℚ) (sp1 : Spectrum),
        initSpectrum (fun _ _ => (0 : ℚ)) (fun _ _ => 1) (stateBuilt11 (1 : ℚ)) spectrumZeroed
          32768 65536 = some (st1, sp1)
        ∧ load st1.heap sp1.samples 0 = some 1
        ∧ (1 : ℚ) ≠ 0 := by
  refine ⟨by decide, by decide, ?_⟩
  obtain ⟨st1, he, -, -, hheap⟩ :=
    initSpectrum_valid_some (fun _ _ => (0 : ℚ)) (fun _ _ => 1) (stateBuilt11 (1 : ℚ))
      spectrumZeroed 65536 32768 (by decide) (by decide) (Or.inl (by decide))
  refine ⟨st1, _, he, ?_, by decide⟩
  have hw : (wrap32 (((65536 : Nat) : Int) * ((32768 : Nat) : Int))).toNat = 0 := by decide
  have hpos : 0 < sizeMul (sizeMul 8 (toSizeT ((65536 : Nat) : Int)))
      (toSizeT ((32768 : Nat) : Int)) / 8 := by decide
  rw [hw] at hheap
  simp only [load, hheap]
  rw [if_pos (le_refl _), Int.toNat_zero]
  exact junk_first _ hpos _

/-- C9: when the table is built (`angles_initialized = 1`), `initSpectrumAngles`
with any `sample_size` returns with the whole state as it was: the heap, which
holds the table entries and the values of every spectrum, and the three
file-scope variables. -/
theorem initSpectrumAngles_built_unchanged {C : Type} (cexp : Int → Int → C)
    (junk : Nat → Nat → C) (st : State C) (sample_size : Int)
    (h : st.angles_initialized = 1) :
    initSpectrumAngles cexp junk st sample_size = some st := by
  unfold initSpectrumAngles
  have h0 : ¬ st.angles_initialized = 0 := by omega
  rw [if_neg h0]
  split <;> rfl

/-- Witness of C9 -/
theorem initSpectrumAngles_built_unchanged_witness :
    (stateBuilt11 (1 : ℚ)).angles_initialized = 1
    ∧ initSpectrumAngles (fun _ _ => (0 : ℚ)) (fun _ _ => 1) (stateBuilt11 (1 : ℚ)) 64
      = some (stateBuilt11 (1 : ℚ)) :=
  ⟨rfl, initSpectrumAngles_built_unchanged (fun _ _ => (0 : ℚ)) (fun _ _ => 1)
      (stateBuilt11 (1 : ℚ)) 64 rfl⟩

/-- C10 (amended): for `10 < N <= 32768`, when no table is built,
`initSpectrumAngles N` returns with `amount_of_angles = N`,
`angles_initialized = 1` and a table of `N * N` entries whose entry at index
`i * N + j` is `exp(-2 pi I i j / N)`, of magnitude 1, for all `i`, `j` in
`[0, N)`. -/
theorem initSpectrumAngles_table (junk : Nat → Nat → ℂ) (st : State ℂ) (N : Int)
    (hN : 10 < N) (hN2 : N ≤ 32768) (h0 : st.angles_initialized = 0) :
    ∃ (st1 : State ℂ) (a : Nat) (blk : List ℂ),
      initSpectrumAngles
          (fun k n => Complex.exp (-((k : ℂ) * (Real.pi : ℂ) * Complex.I) / (n : ℂ)))
          junk st N = some st1
      ∧ st1.amount_of_angles = N ∧ st1.angles_initialized = 1
      ∧ st1.angles = some a ∧ st1.heap[a]? = some blk ∧ blk.length = (N * N).toNat
      ∧ ∀ i j : Int, 0 ≤ i → i < N → 0 ≤ j → j < N →
          load st1.heap st1.angles (i * N + j)
            = some (Complex.exp
                (-(2 * (Real.pi : ℂ) * Complex.I * (i : ℂ) * (j : ℂ)) / (N : ℂ)))
          ∧ Complex.abs (Complex.exp
                (-(2 * (Real.pi : ℂ) * Complex.I * (i : ℂ) * (j : ℂ)) / (N : ℂ))) = 1 := by
  obtain ⟨M, rfl⟩ := Int.eq_ofNat_of_zero_le (by omega : 0 ≤ N)
  have hM : M ≤ 32768 := by omega
  have hMM : M * M ≤ 2147483648 := square_le_of_le M (by omega)
  refine ⟨_, st.heap.length, _, initSpectrumAngles_build _ junk st M hMM h0, rfl, rfl, rfl,
    heap_append_getElem? _ _, ?_, ?_⟩
  · rw [fillTable_length, List.length_map, List.length_range]
    have h3 : ((M * M : Nat) : Int) = (M : Int) * (M : Int) := by push_cast; rfl
    rw [← h3, Int.toNat_ofNat]
  · intro i j hi0 hi hj0 hj
    obtain ⟨I, rfl⟩ := Int.eq_ofNat_of_zero_le hi0
    obtain ⟨J, rfl⟩ := Int.eq_ofNat_of_zero_le hj0
    have hI : I < M := by omega
    have hJ : J < M := by omega
    constructor
    · have h3 : (I : Int) * (M : Int) + (J : Int) = ((I * M + J : Nat) : Int) := by
        push_cast; rfl
      simp only [load, heap_append_getElem?]
      rw [h3, if_pos (Int.ofNat_nonneg _), Int.toNat_ofNat]
      rw [fillTable_getElem? M _ _ (by rw [List.length_map, List.length_range]) I J hI hJ]
      unfold twiddle
      rw [twiddle_exact M I J hM hI hJ]
      exact congrArg some (exp_arg_eq (I : Int) (J : Int) (M : Int))
    · exact abs_exp_entry (I : Int) (J : Int) (M : Int)

/-- Witness of C10 (amended): size 11 from the pristine state, and the entry
of row 3 and column 4. -/
theorem initSpectrumAngles_table_witness :
    ((10 : Int) < 11 ∧ (11 : Int) ≤ 32768 ∧ (statePristine ℂ).angles_initialized = 0)
    ∧ ∃ (st1 : State ℂ) (a : Nat) (blk : List ℂ),
      initSpectrumAngles
          (fun k n => Complex.exp (-((k : ℂ) * (Real.pi : ℂ) * Complex.I) / (n : ℂ)))
          (fun _ _ => 0) (statePristine ℂ) 11 = some st1
      ∧ st1.amount_of_angles = 11 ∧ st1.angles_initialized = 1
      ∧ st1.angles = some a ∧ st1.heap[a]? = some blk ∧ blk.length = ((11 : Int) * 11).toNat
      ∧ load st1.heap st1.angles (3 * 11 + 4)
            = some (Complex.exp
                (-(2 * (Real.pi : ℂ) * Complex.I * ((3 : Int) : ℂ) * ((4 : Int) : ℂ))
                  / ((11 : Int) : ℂ)))
      ∧ Complex.abs (Complex.exp
                (-(2 * (Real.pi : ℂ) * Complex.I * ((3 : Int) : ℂ) * ((4 : Int) : ℂ))
                  / ((11 : Int) : ℂ))) = 1 := by
  obtain ⟨st1, a, blk, h1, h2, h3, h4, h5, h6, hall⟩ :=
    initSpectrumAngles_table (fun _ _ => 0) (statePristine ℂ) 11 (by decide) (by decide) rfl
  exact ⟨⟨by decide, by decide, rfl⟩, st1, a, blk, h1, h2, h3, h4, h5, h6,
    hall 3 4 (by decide) (by decide) (by decide) (by decide)⟩

/-- C10 (as stated) fails: for `N = 32769`, from the pristine state, the build
returns, but at `i = j = 32768` the `int` product `2 * i * j = 2^31` wraps to
`-2^31`, and the entry at index `i * N + j` is `exp(+2^31 pi I / N)`, which is
not `exp(-2 pi I i j / N)`. -/
theorem initSpectrumAngles_32769_wraps :
    (statePristine ℂ).angles_initialized = 0 ∧ (10 : Int) < 32769
    ∧ ∃ (st1 : State ℂ) (z : ℂ),
        initSpectrumAngles
            (fun k n => Complex.exp (-((k : ℂ) * (Real.pi : ℂ) * Complex.I) / (n : ℂ)))
            (fun _ _ => 0) (statePristine ℂ) 32769 = some st1
        ∧ load st1.heap st1.angles (32768 * 32769 + 32768) = some z
        ∧ z ≠ Complex.exp (-(2 * (Real.pi : ℂ) * Complex.I * (((32768 : Int)) : ℂ)
              * (((32768 : Int)) : ℂ)) / (((32769 : Int)) : ℂ)) := by
  refine ⟨rfl, by decide, _, _,
    initSpectrumAngles_build _ (fun _ _ => 0) (statePristine ℂ) 32769 (by decide) rfl,
    ?_, exp_wrapped_ne⟩
  have h3 : (32768 * 32769 + 32768 : Int) = ((32768 * 32769 + 32768 : Nat) : Int) := by
    norm_num
  simp only [load, heap_append_getElem?]
  rw [h3, if_pos (Int.ofNat_nonneg _), Int.toNat_ofNat]
  rw [fillTable_getElem? 32769 _ _ (by rw [List.length_map, List.length_range]) 32768 32768
    (by decide) (by decide)]
  unfold twiddle
  have hw : wrap32 (wrap32 (2 * ((32768 : Nat) : Int)) * ((32768 : Nat) : Int))
      = -2147483648 := by decide
  rw [hw]
  rfl

/-! ## The index of `getSpectrumWindowIntensity` -/

theorem load_neg {V : Type} (h : Heap V) (p : Ptr) (i : Int) (hi : i < 0) :
    load h p i = none := by
  cases p with
  | none => rfl
  | some a =>
    cases hb : h[a]? with
    | none => simp only [load, hb]
    | some blk =>
      have hc : ¬ (0 ≤ i) := by omega
      simp only [load, hb, if_neg hc]

theorem load_some {V : Type} (h : Heap V) (a : Nat) (blk : List V) (i : Int)
    (hh : h[a]? = some blk) (h0 : 0 ≤ i) : load h (some a) i = blk[i.toNat]? := by
  simp only [load, hh, if_pos h0]

theorem getSpectrumWindowIntensity_eq {C R : Type} (cabsf : C → R) (heap : Heap C)
    (spectrum : Spectrum) (window : Int) (indexer : Indexer) :
    getSpectrumWindowIntensity cabsf heap spectrum window indexer
      = (spectrum_window window indexer).bind (fun index =>
          (load heap spectrum.samples index).map cabsf) := by
  unfold getSpectrumWindowIntensity spectrum_window
  cases cmod (wrap32 (indexer.buffer + 1)) indexer.amount_of_buffers <;> rfl

/-- The index the function computes, for sizes whose product fits: it is
`((buffer + 1) mod b) * n + w` and lies in `[0, b * n)`. -/
theorem spectrum_window_in_range (indexer : Indexer) (w : Int) (B N : Nat)
    (hss : indexer.sample_size = (N : Int)) (hab : indexer.amount_of_buffers = (B : Int))
    (hB : 1 ≤ B) (hBmax : B ≤ 2147483647) (hprod : B * N ≤ 2147483648)
    (hb0 : 0 ≤ indexer.buffer) (hb : indexer.buffer < (B : Int)) (hw0 : 0 ≤ w)
    (hw : w < (N : Int)) :
    spectrum_window w indexer = some ((indexer.buffer + 1) % (B : Int) * (N : Int) + w)
    ∧ 0 ≤ (indexer.buffer + 1) % (B : Int) * (N : Int) + w
    ∧ (indexer.buffer + 1) % (B : Int) * (N : Int) + w < (B : Int) * (N : Int) := by
  have hBpos : (0 : Int) < (B : Int) := by omega
  have hs0 : 0 ≤ (indexer.buffer + 1) % (B : Int) := Int.emod_nonneg _ (by omega)
  have hs1 : (indexer.buffer + 1) % (B : Int) < (B : Int) := Int.emod_lt_of_pos _ hBpos
  have hN0 : (0 : Int) ≤ (N : Int) := Int.ofNat_nonneg N
  have hm0 : 0 ≤ (indexer.buffer + 1) % (B : Int) * (N : Int) := mul_nonneg hs0 hN0
  have hm1 : (indexer.buffer + 1) % (B : Int) * (N : Int) ≤ ((B : Int) - 1) * (N : Int) :=
    mul_le_mul_of_nonneg_right (by omega) hN0
  have hm2 : ((B : Int) - 1) * (N : Int) = (B : Int) * (N : Int) - (N : Int) := by ring
  have hp : (B : Int) * (N : Int) ≤ 2147483648 := by
    have : ((B * N : Nat) : Int) ≤ 2147483648 := by omega
    rw [Int.ofNat_mul] at this
    exact this
  refine ⟨?_, by omega, by omega⟩
  unfold spectrum_window cmod
  rw [hab, hss, if_neg (by omega : ¬ (B : Int) = 0)]
  rw [wrap32_eq_self (indexer.buffer + 1) (by omega) (by omega)]
  rw [Int.tmod_eq_emod (by omega) (by omega)]
  simp only [Option.map_some']
  rw [wrap32_eq_self ((indexer.buffer + 1) % (B : Int) * (N : Int)) (by omega) (by omega)]
  rw [wrap32_eq_self _ (by omega) (by omega)]

theorem count_eq_mul (B N : Nat) (hprod : B * N ≤ 2147483648) :
    sizeMul (sizeMul 8 (toSizeT (B : Int))) (toSizeT (N : Int)) / 8 = B * N := by
  rw [malloc_count_mul]
  omega

/-- The read of a window whose `B * N` values are all zero. -/
theorem zero_window_read {C R : Type} [Zero C] (cabsf : C → R) (heap : Heap C)
    (spectrum : Spectrum) (a : Nat) (indexer : Indexer) (w : Int) (B N : Nat)
    (hs : spectrum.samples = some a) (hz : heap[a]? = some (List.replicate (B * N) 0))
    (hss : indexer.sample_size = (N : Int)) (hab : indexer.amount_of_buffers = (B : Int))
    (hB : 1 ≤ B) (hBmax : B ≤ 2147483647) (hprod : B * N ≤ 2147483648)
    (hb0 : 0 ≤ indexer.buffer) (hb : indexer.buffer < (B : Int)) (hw0 : 0 ≤ w)
    (hw : w < (N : Int)) :
    getSpectrumWindowIntensity cabsf heap spectrum w indexer = some (cabsf 0) := by
  obtain ⟨hidx, hi0, hi1⟩ :=
    spectrum_window_in_range indexer w B N hss hab hB hBmax hprod hb0 hb hw0 hw
  have h3 : ((B * N : Nat) : Int) = (B : Int) * (N : Int) := by push_cast; rfl
  have hk : ((indexer.buffer + 1) % (B : Int) * (N : Int) + w).toNat < B * N := by
    have : (indexer.buffer + 1) % (B : Int) * (N : Int) + w < ((B * N : Nat) : Int) := by
      rw [h3]; exact hi1
    omega
  rw [getSpectrumWindowIntensity_eq, hidx]
  simp only [Option.some_bind]
  rw [hs, load_some heap a _ _ hz hi0, List.getElem?_replicate, if_pos hk]
  rfl

/-- C11 (amended): for sizes `b >= 1` and `n` with `b * n <= INT_MAX`, every
indexer of these sizes with active slot in `[0, b)` and every bin `w` in
`[0, n)`: (1) on a spectrum whose `b * n` stored values are all zero,
`getSpectrumWindowIntensity` returns exactly 0; (2) in particular, for
`n > 10` and with the table built already or `n <= 46340`, it returns exactly
0 on the spectrum `initSpectrum` has just initialised. -/
theorem getSpectrumWindowIntensity_zero_window (n b : Int) (indexer : Indexer) (w : Int)
    (hb : b ≥ 1) (hprod : b * n ≤ INT_MAX)
    (hss : indexer.sample_size = n) (hab : indexer.amount_of_buffers = b)
    (hb0 : 0 ≤ indexer.buffer) (hbb : indexer.buffer < b) (hw0 : 0 ≤ w) (hw : w < n) :
    (∀ (heap : Heap ℂ) (spectrum : Spectrum) (a : Nat),
        spectrum.samples = some a →
        heap[a]? = some (List.replicate (b * n).toNat 0) →
        getSpectrumWindowIntensity (fun z : ℂ => Complex.abs z) heap spectrum w indexer
          = some 0)
    ∧ (∀ (cexp : Int → Int → ℂ) (junk : Nat → Nat → ℂ) (st : State ℂ) (spectrum : Spectrum),
        n > 10 → (st.angles_initialized ≠ 0 ∨ n ≤ 46340) →
        ∃ (st1 : State ℂ) (sp1 : Spectrum),
          initSpectrum cexp junk st spectrum n b = some (st1, sp1)
          ∧ getSpectrumWindowIntensity (fun z : ℂ => Complex.abs z) st1.heap sp1 w indexer
              = some 0) := by
  unfold INT_MAX at hprod
  obtain ⟨N, rfl⟩ := Int.eq_ofNat_of_zero_le (by omega : 0 ≤ n)
  obtain ⟨B, rfl⟩ := Int.eq_ofNat_of_zero_le (by omega : 0 ≤ b)
  have h3 : ((B * N : Nat) : Int) = (B : Int) * (N : Int) := by push_cast; rfl
  have hBN : B * N ≤ 2147483647 := by
    have : ((B * N : Nat) : Int) ≤ 2147483647 := by rw [h3]; exact hprod
    omega
  have hNpos : 1 ≤ N := by omega
  have hBmax : B ≤ 2147483647 := by
    have : B * 1 ≤ B * N := Nat.mul_le_mul_left B hNpos
    omega
  have ht : ((B : Int) * (N : Int)).toNat = B * N := by rw [← h3, Int.toNat_ofNat]
  have habs : Complex.abs 0 = 0 := map_zero _
  constructor
  · intro heap spectrum a hs hz
    rw [ht] at hz
    rw [zero_window_read (fun z : ℂ => Complex.abs z) heap spectrum a indexer w B N hs hz hss hab
      (by omega) hBmax (by omega) hb0 hbb hw0 hw]
    exact congrArg some habs
  · intro cexp junk st spectrum hn hsize
    have hs : st.angles_initialized ≠ 0 ∨ N ≤ 46340 := by
      rcases hsize with h | h
      · exact Or.inl h
      · exact Or.inr (by omega)
    obtain ⟨st1, he, -, -, hheap⟩ :=
      initSpectrum_valid_some cexp junk st spectrum B N (by omega) (by omega) hs
    have hw32 : (wrap32 ((B : Int) * (N : Int))).toNat = B * N := by
      rw [← h3, wrap32_eq_self _ (by omega) (by omega), Int.toNat_ofNat]
    rw [hw32, count_eq_mul B N (by omega)] at hheap
    have hl : ((List.range (B * N)).map (junk st.heap.length)).length = B * N := by
      rw [List.length_map, List.length_range]
    have hrep := fillZero_eq_replicate ((List.range (B * N)).map (junk st.heap.length))
    rw [hl] at hrep
    rw [hrep] at hheap
    refine ⟨st1, _, he, ?_⟩
    rw [zero_window_read (fun z : ℂ => Complex.abs z) st1.heap _ st.heap.length indexer w B N rfl
      hheap hss hab (by omega) hBmax (by omega) hb0 hbb hw0 hw]
    exact congrArg some habs

/-- Witness of C11 (amended): two slots of eleven bins, active slot 1, bin 3,
on a block of 22 zeros and on the spectrum initialised from the pristine
state. -/
theorem getSpectrumWindowIntensity_zero_window_witness :
    getSpectrumWindowIntensity (fun z : ℂ => Complex.abs z) [List.replicate ((2 : Int) * 11).toNat 0]
        spectrum2 3 { sample := 0, buffer := 1, sample_size := 11, amount_of_buffers := 2 }
      = some 0
    ∧ ∃ (st1 : State ℂ) (sp1 : Spectrum),
        initSpectrum (fun _ _ => (0 : ℂ)) (fun _ _ => 1) (statePristine ℂ) spectrumZeroed 11 2
          = some (st1, sp1)
        ∧ getSpectrumWindowIntensity (fun z : ℂ => Complex.abs z) st1.heap sp1 3
            { sample := 0, buffer := 1, sample_size := 11, amount_of_buffers := 2 } = some 0 := by
  have h := getSpectrumWindowIntensity_zero_window 11 2
    { sample := 0, buffer := 1, sample_size := 11, amount_of_buffers := 2 } 3
    (by decide) (by decide) rfl rfl (by decide) (by decide) (by decide) (by decide)
  exact ⟨h.1 [List.replicate ((2 : Int) * 11).toNat 0] spectrum2 0 rfl rfl,
    h.2 (fun _ _ => (0 : ℂ)) (fun _ _ => 1) (statePristine ℂ) spectrumZeroed (by decide)
      (Or.inr (by decide))⟩

/-- C11 (as stated) fails: on a spectrum of 65537 slots of 32768 bins whose
stored values are all zero, with active slot 65535 and bin 0, the `int`
product `65536 * 32768` wraps, the index computed is `-2^31` and the read has
no defined result: the function does not return 0. -/
theorem getSpectrumWindowIntensity_zero_65537 :
    (spectrumWide.sample_size = indexerWide.sample_size
      ∧ spectrumWide.amount_of_buffers = indexerWide.amount_of_buffers
      ∧ 0 ≤ indexerWide.buffer ∧ indexerWide.buffer < indexerWide.amount_of_buffers
      ∧ (0 : Int) < indexerWide.sample_size)
    ∧ getSpectrumWindowIntensity (fun z : ℂ => Complex.abs z)
        [List.replicate (65537 * 32768) (0 : ℂ)] spectrumWide 0 indexerWide = none := by
  refine ⟨by decide, ?_⟩
  have hidx : spectrum_window 0 indexerWide = some (-2147483648) := by decide
  rw [getSpectrumWindowIntensity_eq, hidx]
  simp only [Option.some_bind]
  rw [load_neg _ _ _ (by decide)]
  rfl

/-! ## Initialisation of a sensor -/

/-- C12: `initMagneticSensor` has no check of `sample_size` and takes the
sensor by value: (a) with `sample_size = 5` its body allocates 10 samples and
sets the indexer of its copy, it rejects nothing; (b) with `sample_size = 11`
the caller's sensor is as before the call, without sample buffer and with the
indexer's `sample_size` at 0, while a block of 22 samples is left on the
heap. -/
theorem initMagneticSensor_no_check (junk : Nat → Nat → ℚ) :
    initMagneticSensor_body junk [] sensorZeroed5 225
      = ([(List.range 10).map (junk 0)],
          { samples := some 0, sample_size := 5,
            indexer := { sample := 0, buffer := 0, sample_size := 5, amount_of_buffers := 0 } })
    ∧ initMagneticSensor junk [] sensorZeroed11 225
        = ([(List.range 22).map (junk 0)], sensorZeroed11)
    ∧ (initMagneticSensor junk [] sensorZeroed11 225).2.samples = none
    ∧ (initMagneticSensor junk [] sensorZeroed11 225).2.indexer.sample_size = 0
    ∧ (initMagneticSensor junk [] sensorZeroed11 225).2.sample_size = 11 := by
  refine ⟨?_, ?_, rfl, rfl, rfl⟩
  · simp [initMagneticSensor_body, malloc, sizeMul, toSizeT, sensorZeroed5]
  · simp [initMagneticSensor, initMagneticSensor_body, malloc, sizeMul, toSizeT, sensorZeroed11]

/-! ## The index stays inside the value array -/

/-- The first initialisation: the values are block `heap.length`, the table is
block `heap.length + 1` and is the one built for the size given. -/
theorem initSpectrum_first {C : Type} [Zero C] (cexp : Int → Int → C) (junk : Nat → Nat → C)
    (st : State C) (spectrum : Spectrum) (B N : Nat) (hN : 10 < N) (hB : 1 ≤ B)
    (hN2 : N ≤ 46340) (h0 : st.angles_initialized = 0) :
    ∃ st1 : State C,
      initSpectrum cexp junk st spectrum (N : Int) (B : Int)
        = some (st1, { samples := some st.heap.length, sample_size := (N : Int),
                       amount_of_buffers := (B : Int),
                       double_per_sample_size := 2 / ((N : Int) : ℚ),
                       initialized := 1 })
      ∧ st1.angles = some (st.heap.length + 1) ∧ st1.angles_initialized = 1
      ∧ st1.amount_of_angles = (N : Int)
      ∧ st1.heap[st.heap.length + 1]? = some (fillTable N (twiddle cexp N)
            ((List.range (N * N)).map (junk (st.heap.length + 1)))) := by
  rw [initSpectrum_valid cexp junk st spectrum B N hN hB]
  rw [initSpectrumAngles_build cexp junk _ N (square_le_of_le N hN2) (by exact h0)]
  refine ⟨_, rfl, ?_, rfl, rfl, ?_⟩
  · dsimp only
    rw [List.length_append, List.length_singleton]
  · dsimp only
    have hl : (st.heap ++ [fillZero (wrap32 ((B : Int) * (N : Int))).toNat
        ((List.range (sizeMul (sizeMul 8 (toSizeT (B : Int))) (toSizeT (N : Int)) / 8)).map
          (junk st.heap.length))]).length = st.heap.length + 1 := by
      rw [List.length_append, List.length_singleton]
    rw [hl]
    have := heap_append_getElem? (st.heap ++ [fillZero (wrap32 ((B : Int) * (N : Int))).toNat
        ((List.range (sizeMul (sizeMul 8 (toSizeT (B : Int))) (toSizeT (N : Int)) / 8)).map
          (junk st.heap.length))])
      (fillTable N (twiddle cexp N) ((List.range (N * N)).map (junk (st.heap.length + 1))))
    rw [hl] at this
    exact this

/-- A later initialisation, the table being built: the file-scope variables
and every block allocated before are as they were. -/
theorem initSpectrum_later {C : Type} [Zero C] (cexp : Int → Int → C) (junk : Nat → Nat → C)
    (st : State C) (spectrum : Spectrum) (B N : Nat) (hN : 10 < N) (hB : 1 ≤ B)
    (h0 : st.angles_initialized ≠ 0) :
    ∃ st1 : State C,
      initSpectrum cexp junk st spectrum (N : Int) (B : Int)
        = some (st1, { samples := some st.heap.length, sample_size := (N : Int),
                       amount_of_buffers := (B : Int),
                       double_per_sample_size := 2 / ((N : Int) : ℚ),
                       initialized := 1 })
      ∧ st1.angles = st.angles ∧ st1.angles_initialized = st.angles_initialized
      ∧ st1.amount_of_angles = st.amount_of_angles
      ∧ ∀ a : Nat, a < st.heap.length → st1.heap[a]? = st.heap[a]? := by
  rw [initSpectrum_valid cexp junk st spectrum B N hN hB]
  rw [initSpectrumAngles_nonzero cexp junk _ (N : Int) (by exact h0)]
  refine ⟨_, rfl, rfl, rfl, rfl, ?_⟩
  intro a ha
  exact List.getElem?_append_left ha

theorem twiddle_small {C : Type} (cexp : Int → Int → C) (i j : Fin 11) :
    twiddle cexp 11 i.val j.val = cexp (2 * (i.val : Int) * (j.val : Int)) 11 := by
  unfold twiddle
  rw [twiddle_exact 11 i.val j.val (by decide) i.isLt j.isLt]
  rfl

/-- C16: from the pristine state, after `initSpectrum(s1, 11, 2)` and then
`initSpectrum(s2, 12, 2)`, `isSpectrumInitialized(s2)` returns 1 while
`amount_of_angles` is 11 and `s2.sample_size` is 12, and the table is the block
of `11 * 11` entries built by the first call, with the entries for size 11. -/
theorem initSpectrum_table_mismatch {C : Type} [Zero C] (cexp : Int → Int → C)
    (junk : Nat → Nat → C) :
    ∃ (st1 : State C) (sp1 : Spectrum) (st2 : State C) (sp2 : Spectrum) (T : List C),
      initSpectrum cexp junk (statePristine C) spectrumZeroed 11 2 = some (st1, sp1)
      ∧ initSpectrum cexp junk st1 spectrumZeroed 12 2 = some (st2, sp2)
      ∧ isSpectrumInitialized st2 sp2 = 1
      ∧ st2.amount_of_angles = 11 ∧ sp2.sample_size = 12
      ∧ st1.angles = some 1 ∧ st2.angles = some 1
      ∧ st1.heap[1]? = some T ∧ st2.heap[1]? = some T ∧ T.length = 11 * 11
      ∧ ∀ i j : Fin 11,
          T[i.val * 11 + j.val]? = some (cexp (2 * (i.val : Int) * (j.val : Int)) 11) := by
  obtain ⟨st1, e1, ha1, hf1, hn1, ht1⟩ :=
    initSpectrum_first cexp junk (statePristine C) spectrumZeroed 2 11 (by decide) (by decide)
      (by decide) rfl
  have hlen1 : 1 < st1.heap.length := by
    rcases Nat.lt_or_ge 1 st1.heap.length with h | h
    · exact h
    · have hnone : st1.heap[1]? = none := List.getElem?_eq_none h
      have ht1b : st1.heap[1]? = some _ := ht1
      rw [hnone] at ht1b
      cases ht1b
  obtain ⟨st2, e2, ha2, hf2, hn2, hh2⟩ :=
    initSpectrum_later cexp junk st1 spectrumZeroed 2 12 (by decide) (by decide)
      (by rw [hf1]; decide)
  refine ⟨st1, _, st2, _, _, e1, e2, ?_, ?_, rfl, ha1, ?_, ht1, ?_, ?_, ?_⟩
  · rw [checkSum_one_iff]
    refine ⟨by rw [hf2, hf1], rfl, ?_⟩
    show ((12 : Nat) : Int) > 10
    decide
  · rw [hn2, hn1]; rfl
  · rw [ha2, ha1]; rfl
  · rw [hh2 1 hlen1]; exact ht1
  · rw [fillTable_length, List.length_map, List.length_range]
  · intro i j
    rw [fillTable_getElem? 11 _ _ (by rw [List.length_map, List.length_range]) i.val j.val
      i.isLt j.isLt]
    exact congrArg some (twiddle_small cexp i j)

/-! ## The `int` arithmetic of the table build -/

theorem int_range_arith (N i j : Int) (hN2 : N ≤ 32768)
    (hi0 : 0 ≤ i) (hi : i < N) (hj0 : 0 ≤ j) (hj : j < N) :
    2 * i * j ≤ 2147483647 ∧ i * N + j ≤ 2147483647
      ∧ wrap32 (wrap32 (2 * i) * j) = 2 * i * j
      ∧ wrap32 (wrap32 (i * N) + j) = i * N + j := by
  have h1 : i * j ≤ 32767 * 32767 :=
    mul_le_mul (by omega) (by omega) hj0 (by decide)
  have h2 : 0 ≤ i * j := mul_nonneg hi0 hj0
  have h3 : i * N ≤ 32767 * 32768 :=
    mul_le_mul (by omega) hN2 (by omega) (by decide)
  have h4 : 0 ≤ i * N := mul_nonneg hi0 (by omega)
  have e : 2 * i * j = 2 * (i * j) := by ring
  refine ⟨by omega, by omega, ?_, ?_⟩
  · rw [wrap32_eq_self (2 * i) (by omega) (by omega)]
    exact wrap32_eq_self _ (by omega) (by omega)
  · rw [wrap32_eq_self (i * N) (by omega) (by omega)]
    exact wrap32_eq_self _ (by omega) (by omega)

/-- The entry the build leaves at row `I` and column `J`, for a size whose
square fits the `int` range: the value of `cexp` at the wrapped product. -/
theorem table_entry {C : Type} (cexp : Int → Int → C) (junk : Nat → Nat → C) (st : State C)
    (N I J : Nat) (hN : N * N ≤ 2147483648) (h0 : st.angles_initialized = 0)
    (hI : I < N) (hJ : J < N) :
    ∃ st1 : State C,
      initSpectrumAngles cexp junk st (N : Int) = some st1
      ∧ st1.amount_of_angles = (N : Int) ∧ st1.angles_initialized = 1
      ∧ load st1.heap st1.angles ((I : Int) * (N : Int) + (J : Int))
          = some (cexp (wrap32 (wrap32 (2 * (I : Int)) * (J : Int))) (N : Int)) := by
  refine ⟨_, initSpectrumAngles_build cexp junk st N hN h0, rfl, rfl, ?_⟩
  have h3 : (I : Int) * (N : Int) + (J : Int) = ((I * N + J : Nat) : Int) := by
    push_cast; rfl
  simp only [load, heap_append_getElem?]
  rw [h3, if_pos (Int.ofNat_nonneg _), Int.toNat_ofNat]
  rw [fillTable_getElem? N _ _ (by rw [List.length_map, List.length_range]) I J hI hJ]
  rfl

/-- C17: when no table is built, for `11 <= N <= 32768` and `i`, `j` in
`[0, N)`, the `int` product `2 * i * j` and the index `i * N + j` of
`initSpectrumAngles` are at most `INT_MAX`, neither wraps, and the build
returns with the entry at index `i * N + j` computed from the mathematical
product `2 * i * j`; for `N = 32769` the product `2 * i * j` exceeds `INT_MAX`
at `i = j = 32768`, and the entry the build stores there is computed from
`-2^31` in its place. -/
theorem twiddle_int_range {C : Type} (cexp : Int → Int → C) (junk : Nat → Nat → C)
    (st : State C) (N i j : Int) (hN : 11 ≤ N) (hN2 : N ≤ 32768)
    (h0 : st.angles_initialized = 0)
    (hi0 : 0 ≤ i) (hi : i < N) (hj0 : 0 ≤ j) (hj : j < N) :
    (2 * i * j ≤ INT_MAX ∧ i * N + j ≤ INT_MAX
      ∧ wrap32 (wrap32 (2 * i) * j) = 2 * i * j
      ∧ wrap32 (wrap32 (i * N) + j) = i * N + j
      ∧ ∃ st1 : State C,
          initSpectrumAngles cexp junk st N = some st1
          ∧ st1.amount_of_angles = N ∧ st1.angles_initialized = 1
          ∧ load st1.heap st1.angles (i * N + j) = some (cexp (2 * i * j) N))
    ∧ (2 * 32768 * 32768 > INT_MAX
      ∧ wrap32 (wrap32 (2 * 32768) * 32768) = -2147483648
      ∧ ∃ st2 : State C,
          initSpectrumAngles cexp junk st 32769 = some st2
          ∧ st2.amount_of_angles = 32769 ∧ st2.angles_initialized = 1
          ∧ load st2.heap st2.angles (32768 * 32769 + 32768)
              = some (cexp (-2147483648) 32769)) := by
  obtain ⟨ha1, ha2, ha3, ha4⟩ := int_range_arith N i j hN2 hi0 hi hj0 hj
  unfold INT_MAX
  refine ⟨⟨ha1, ha2, ha3, ha4, ?_⟩, by decide, by decide, ?_⟩
  · obtain ⟨M, rfl⟩ := Int.eq_ofNat_of_zero_le (by omega : 0 ≤ N)
    obtain ⟨I, rfl⟩ := Int.eq_ofNat_of_zero_le hi0
    obtain ⟨J, rfl⟩ := Int.eq_ofNat_of_zero_le hj0
    obtain ⟨st1, e1, hn1, hf1, hl1⟩ :=
      table_entry cexp junk st M I J (square_le_of_le M (by omega)) h0 (by omega) (by omega)
    rw [ha3] at hl1
    exact ⟨st1, e1, hn1, hf1, hl1⟩
  · obtain ⟨st2, e2, hn2, hf2, hl2⟩ :=
      table_entry cexp junk st 32769 32768 32768 (by decide) h0 (by decide) (by decide)
    have hw : wrap32 (wrap32 (2 * ((32768 : Nat) : Int)) * ((32768 : Nat) : Int))
        = -2147483648 := by decide
    rw [hw] at hl2
    exact ⟨st2, e2, hn2, hf2, hl2⟩

/-- Witness of C17: the size 32768 from the pristine state, row and column
32767, with a `cexp` that records its two arguments. -/
theorem twiddle_int_range_witness :
    ((11 : Int) ≤ 32768 ∧ (32768 : Int) ≤ 32768
      ∧ (statePristine (Int × Int)).angles_initialized = 0
      ∧ (0 : Int) ≤ 32767 ∧ (32767 : Int) < 32768)
    ∧ (2 * 32767 * 32767 ≤ INT_MAX ∧ 32767 * 32768 + 32767 ≤ INT_MAX
      ∧ wrap32 (wrap32 (2 * 32767) * 32767) = 2 * 32767 * 32767
      ∧ wrap32 (wrap32 (32767 * 32768) + 32767) = 32767 * 32768 + 32767
      ∧ ∃ st1 : State (Int × Int),
          initSpectrumAngles (fun k n => (k, n)) (fun _ _ => (0, 0))
            (statePristine (Int × Int)) 32768 = some st1
          ∧ st1.amount_of_angles = 32768 ∧ st1.angles_initialized = 1
          ∧ load st1.heap st1.angles (32767 * 32768 + 32767)
              = some ((fun k n => (k, n)) (2 * 32767 * 32767) 32768))
    ∧ (2 * 32768 * 32768 > INT_MAX
      ∧ wrap32 (wrap32 (2 * 32768) * 32768) = -2147483648
      ∧ ∃ st2 : State (Int × Int),
          initSpectrumAngles (fun k n => (k, n)) (fun _ _ => (0, 0))
            (statePristine (Int × Int)) 32769 = some st2
          ∧ st2.amount_of_angles = 32769 ∧ st2.angles_initialized = 1
          ∧ load st2.heap st2.angles (32768 * 32769 + 32768)
              = some ((fun k n => (k, n)) (-2147483648) 32769)) :=
  ⟨⟨by decide, by decide, rfl, by decide, by decide⟩,
    twiddle_int_range (fun k n => (k, n)) (fun _ _ => (0, 0)) (statePristine (Int × Int))
      32768 32767 32767 (by decide) (by decide) rfl (by decide) (by decide) (by decide)
      (by decide)⟩

end Target
